import Mathlib

/-!
Shallow embedding of the selection/transform engine of ImgEZ (`src/ImgEZ.py`,
class `ImageLabel`), with theorems checking the specification's claims.

Modelling conventions:
* Qt `QPoint`/`QRect` are embedded as integer structures.  A `QRect` stores its
  two corners `x1 ≤ x2`, `y1 ≤ y2` in Qt5's historical convention
  (`x2 = x + width - 1`), and all `QRect` operations used by the source
  (`normalized`, `contains`, `intersected`, `translate`, `moveLeft`, ...) are
  translated from Qt5's implementations.
* Python floats are embedded as exact rationals (`ℚ`); Python `int(x)` is
  truncation toward zero (`intTrunc`), and Python `//` is `Int.fdiv`.
* Pixel buffers are abstract values of a type parameter `α`; the pixel-level
  content of Qt's crop (`QImage.copy`) and paint-based rotation is abstracted
  into function parameters, since the claims under check concern coordinate
  mapping and history/installation discipline, not resampling.
* The aspect-fit computation that the source duplicates verbatim in
  `to_relative_pos`, `get_current_rect`, `get_edge_at_position`,
  `mousePressEvent` and `adjust_rect_size` is written once as `actualRect`.
-/

namespace ImgEZ

/-- Python `int()` applied to a float: truncation toward zero. -/
def intTrunc (q : ℚ) : ℤ :=
  if 0 ≤ q then ⌊q⌋ else ⌈q⌉

/-- Integer point, embedding Qt `QPoint`. -/
structure QPointI where
  x : ℤ
  y : ℤ
  deriving DecidableEq, Repr

/-- Integer rectangle, embedding Qt5 `QRect`: corners with `x2 = x + w - 1`. -/
structure QRectI where
  x1 : ℤ
  y1 : ℤ
  x2 : ℤ
  y2 : ℤ
  deriving DecidableEq, Repr

namespace QRectI

/-- Embeds the `QRect(x, y, w, h)` constructor. -/
def mkXYWH (x y w h : ℤ) : QRectI :=
  ⟨x, y, x + w - 1, y + h - 1⟩

def left (r : QRectI) : ℤ := r.x1

def right (r : QRectI) : ℤ := r.x2

def top (r : QRectI) : ℤ := r.y1

def bottom (r : QRectI) : ℤ := r.y2

def width (r : QRectI) : ℤ := r.x2 - r.x1 + 1

def height (r : QRectI) : ℤ := r.y2 - r.y1 + 1

def topLeft (r : QRectI) : QPointI := ⟨r.x1, r.y1⟩

def bottomRight (r : QRectI) : QPointI := ⟨r.x2, r.y2⟩

/-- Qt5 `QRect::isNull`. -/
def isNull (r : QRectI) : Bool :=
  decide (r.x2 = r.x1 - 1) && decide (r.y2 = r.y1 - 1)

/-- Qt5 `QRect::isValid`. -/
def isValid (r : QRectI) : Bool :=
  decide (r.x1 ≤ r.x2) && decide (r.y1 ≤ r.y2)

/-- Qt5 `QRect::translate` by a point delta. -/
def translate (r : QRectI) (d : QPointI) : QRectI :=
  ⟨r.x1 + d.x, r.y1 + d.y, r.x2 + d.x, r.y2 + d.y⟩

/-- Qt5 `QRect::moveLeft`: move, keeping the width. -/
def moveLeft (r : QRectI) (pos : ℤ) : QRectI :=
  ⟨pos, r.y1, pos + (r.x2 - r.x1), r.y2⟩

/-- Qt5 `QRect::moveRight`: move, keeping the width. -/
def moveRight (r : QRectI) (pos : ℤ) : QRectI :=
  ⟨pos - (r.x2 - r.x1), r.y1, pos, r.y2⟩

/-- Qt5 `QRect::moveTop`: move, keeping the height. -/
def moveTop (r : QRectI) (pos : ℤ) : QRectI :=
  ⟨r.x1, pos, r.x2, pos + (r.y2 - r.y1)⟩

/-- Qt5 `QRect::moveBottom`: move, keeping the height. -/
def moveBottom (r : QRectI) (pos : ℤ) : QRectI :=
  ⟨r.x1, pos - (r.y2 - r.y1), r.x2, pos⟩

/-- Qt5 `QRect::normalized`, including its historical quirk that a rectangle
with `x2 = x1 - 1` (width 0) is not swapped. -/
def normalized (r : QRectI) : QRectI :=
  ⟨if r.x2 < r.x1 - 1 then r.x2 else r.x1,
   if r.y2 < r.y1 - 1 then r.y2 else r.y1,
   if r.x2 < r.x1 - 1 then r.x1 else r.x2,
   if r.y2 < r.y1 - 1 then r.y1 else r.y2⟩

/-- Qt5 `QRect::contains(QPoint, proper = false)`. -/
def contains (r : QRectI) (p : QPointI) : Bool :=
  let l := if r.x2 < r.x1 - 1 then r.x2 else r.x1
  let rr := if r.x2 < r.x1 - 1 then r.x1 else r.x2
  let t := if r.y2 < r.y1 - 1 then r.y2 else r.y1
  let b := if r.y2 < r.y1 - 1 then r.y1 else r.y2
  decide (l ≤ p.x) && decide (p.x ≤ rr) && decide (t ≤ p.y) && decide (p.y ≤ b)

/-- Qt5 `QRect::operator&` (`intersected`). -/
def intersected (r s : QRectI) : QRectI :=
  if r.isNull || s.isNull then ⟨0, 0, -1, -1⟩
  else
    let l1 := if r.x2 - r.x1 + 1 < 0 then r.x2 else r.x1
    let r1 := if r.x2 - r.x1 + 1 < 0 then r.x1 else r.x2
    let l2 := if s.x2 - s.x1 + 1 < 0 then s.x2 else s.x1
    let r2 := if s.x2 - s.x1 + 1 < 0 then s.x1 else s.x2
    if l1 > r2 || l2 > r1 then ⟨0, 0, -1, -1⟩
    else
      let t1 := if r.y2 - r.y1 + 1 < 0 then r.y2 else r.y1
      let b1 := if r.y2 - r.y1 + 1 < 0 then r.y1 else r.y2
      let t2 := if s.y2 - s.y1 + 1 < 0 then s.y2 else s.y1
      let b2 := if s.y2 - s.y1 + 1 < 0 then s.y1 else s.y2
      if t1 > b2 || t2 > b1 then ⟨0, 0, -1, -1⟩
      else ⟨max l1 l2, max t1 t2, min r1 r2, min b1 b2⟩

@[simp] lemma translate_x1 (r : QRectI) (d : QPointI) : (r.translate d).x1 = r.x1 + d.x := rfl

@[simp] lemma translate_x2 (r : QRectI) (d : QPointI) : (r.translate d).x2 = r.x2 + d.x := rfl

@[simp] lemma translate_y1 (r : QRectI) (d : QPointI) : (r.translate d).y1 = r.y1 + d.y := rfl

@[simp] lemma translate_y2 (r : QRectI) (d : QPointI) : (r.translate d).y2 = r.y2 + d.y := rfl

@[simp] lemma moveLeft_x1 (r : QRectI) (p : ℤ) : (r.moveLeft p).x1 = p := rfl

@[simp] lemma moveLeft_x2 (r : QRectI) (p : ℤ) : (r.moveLeft p).x2 = p + (r.x2 - r.x1) := rfl

@[simp] lemma moveLeft_y1 (r : QRectI) (p : ℤ) : (r.moveLeft p).y1 = r.y1 := rfl

@[simp] lemma moveLeft_y2 (r : QRectI) (p : ℤ) : (r.moveLeft p).y2 = r.y2 := rfl

@[simp] lemma moveRight_x1 (r : QRectI) (p : ℤ) : (r.moveRight p).x1 = p - (r.x2 - r.x1) := rfl

@[simp] lemma moveRight_x2 (r : QRectI) (p : ℤ) : (r.moveRight p).x2 = p := rfl

@[simp] lemma moveRight_y1 (r : QRectI) (p : ℤ) : (r.moveRight p).y1 = r.y1 := rfl

@[simp] lemma moveRight_y2 (r : QRectI) (p : ℤ) : (r.moveRight p).y2 = r.y2 := rfl

@[simp] lemma moveTop_x1 (r : QRectI) (p : ℤ) : (r.moveTop p).x1 = r.x1 := rfl

@[simp] lemma moveTop_x2 (r : QRectI) (p : ℤ) : (r.moveTop p).x2 = r.x2 := rfl

@[simp] lemma moveTop_y1 (r : QRectI) (p : ℤ) : (r.moveTop p).y1 = p := rfl

@[simp] lemma moveTop_y2 (r : QRectI) (p : ℤ) : (r.moveTop p).y2 = p + (r.y2 - r.y1) := rfl

@[simp] lemma moveBottom_x1 (r : QRectI) (p : ℤ) : (r.moveBottom p).x1 = r.x1 := rfl

@[simp] lemma moveBottom_x2 (r : QRectI) (p : ℤ) : (r.moveBottom p).x2 = r.x2 := rfl

@[simp] lemma moveBottom_y1 (r : QRectI) (p : ℤ) : (r.moveBottom p).y1 = p - (r.y2 - r.y1) := rfl

@[simp] lemma moveBottom_y2 (r : QRectI) (p : ℤ) : (r.moveBottom p).y2 = p := rfl

@[simp] lemma topLeft_x (r : QRectI) : r.topLeft.x = r.x1 := rfl

@[simp] lemma topLeft_y (r : QRectI) : r.topLeft.y = r.y1 := rfl

@[simp] lemma bottomRight_x (r : QRectI) : r.bottomRight.x = r.x2 := rfl

@[simp] lemma bottomRight_y (r : QRectI) : r.bottomRight.y = r.y2 := rfl

@[simp] lemma left_eq (r : QRectI) : r.left = r.x1 := rfl

@[simp] lemma right_eq (r : QRectI) : r.right = r.x2 := rfl

@[simp] lemma top_eq (r : QRectI) : r.top = r.y1 := rfl

@[simp] lemma bottom_eq (r : QRectI) : r.bottom = r.y2 := rfl

@[simp] lemma width_eq (r : QRectI) : r.width = r.x2 - r.x1 + 1 := rfl

@[simp] lemma height_eq (r : QRectI) : r.height = r.y2 - r.y1 + 1 := rfl

lemma mk_eta (r : QRectI) : QRectI.mk r.x1 r.y1 r.x2 r.y2 = r := rfl

end QRectI

/-- Embeds `ImageLabel.EDGE_THRESHOLD`. -/
def EDGE_THRESHOLD : ℤ := 5

/-- Embeds `ImageLabel.MIN_SIZE`, the minimum selection size in pixels. -/
def MIN_SIZE : ℤ := 1

/-- Embeds `ImageLabel.max_history`, the history capacity. -/
def max_history : ℕ := 10

/-- Embeds the nested constants `ImageLabel.EdgeType` as a sum type. -/
inductive EdgeType where
  | none
  | left
  | right
  | top
  | bottom
  | topLeft
  | topRight
  | bottomLeft
  | bottomRight
  | move
  deriving DecidableEq, Repr

/-- Aspect-fit computation of the actually painted sub-rectangle, duplicated
verbatim at five places in the source (`to_relative_pos`,
`get_current_rect`, `get_edge_at_position`, `mousePressEvent`,
`adjust_rect_size`); written once here.  `origW`, `origH` are the original
pixmap's dimensions, `cur` is `current_pixmap_rect`. -/
def actualRect (origW origH : ℚ) (cur : QRectI) : QRectI :=
  let original_aspect := origW / origH
  let current_aspect := (cur.width : ℚ) / (cur.height : ℚ)
  if original_aspect > current_aspect then
    let new_height := intTrunc ((cur.width : ℚ) / original_aspect)
    let y_offset := Int.fdiv (cur.height - new_height) 2
    ⟨cur.x1, cur.y1 + y_offset, cur.x2, cur.y1 + y_offset + new_height - 1⟩
  else
    let new_width := intTrunc ((cur.height : ℚ) * original_aspect)
    let x_offset := Int.fdiv (cur.width - new_width) 2
    ⟨cur.x1 + x_offset, cur.y1, cur.x1 + x_offset + new_width - 1, cur.y2⟩

/-- Embeds `ImageLabel.to_relative_pos` (guards for a loaded image and a
computed `current_pixmap_rect` are hypotheses of the theorems below). -/
def to_relative_pos (origW origH : ℚ) (cur : QRectI) (pos : QPointI) : ℚ × ℚ :=
  let a := actualRect origW origH cur
  (((pos.x : ℚ) - (a.left : ℚ)) / (a.width : ℚ),
   ((pos.y : ℚ) - (a.top : ℚ)) / (a.height : ℚ))

/-- Embeds `ImageLabel.to_local_pos`.  Note that the source maps the relative
point over the full `current_pixmap_rect`, not over the aspect-fit
`actualRect`. -/
def to_local_pos (cur : QRectI) (rel : ℚ × ℚ) : QPointI :=
  ⟨intTrunc ((cur.left : ℚ) + rel.1 * (cur.width : ℚ)),
   intTrunc ((cur.top : ℚ) + rel.2 * (cur.height : ℚ))⟩

/-- Embeds `ImageLabel.get_selection_rect`: relative selection to
original-image pixel coordinates (`W`, `H` are the original dimensions). -/
def get_selection_rect (rs re : ℚ × ℚ) (W H : ℤ) : QRectI :=
  (QRectI.mkXYWH (intTrunc (rs.1 * (W : ℚ))) (intTrunc (rs.2 * (H : ℚ)))
      (intTrunc ((re.1 - rs.1) * (W : ℚ))) (intTrunc ((re.2 - rs.2) * (H : ℚ)))
    ).normalized.intersected (QRectI.mkXYWH 0 0 W H)

/-- Modelled from the spec's words (claim C8): the same mapping to
original-image pixel coordinates, but with the products *floored* to
integers instead of truncated toward zero, for comparison with the source's
`get_selection_rect`. -/
def selection_rect_floor (rs re : ℚ × ℚ) (W H : ℤ) : QRectI :=
  (QRectI.mkXYWH ⌊rs.1 * (W : ℚ)⌋ ⌊rs.2 * (H : ℚ)⌋
      ⌊(re.1 - rs.1) * (W : ℚ)⌋ ⌊(re.2 - rs.2) * (H : ℚ)⌋
    ).normalized.intersected (QRectI.mkXYWH 0 0 W H)

/-- Embeds `ImageLabel.adjust_rect_size`.  The source's lines 473-481 first
return `(rect, QPoint(0, 0), is_min_size)` when either corner of the clamped
rectangle lies outside `actual_rect`, and otherwise take the then-branch of
an `if` whose condition is the negation of the first one, so the two
conditionals fold into one here.  For every edge type other than `move` the
source has no code at all: it falls through to `return new_rect,
adjusted_delta, is_min_size` with all three values unchanged. -/
def adjust_rect_size (origW origH : ℚ) (cur : QRectI) (rect : QRectI)
    (edge_type : EdgeType) (delta : QPointI) : QRectI × QPointI × Bool :=
  let adjusted_delta := delta
  let is_min_size := false
  let actual_rect := actualRect origW origH cur
  if edge_type = EdgeType.move then
    let m0 := rect.translate delta
    let m1 := if m0.left < actual_rect.left then m0.moveLeft actual_rect.left else m0
    let m2 := if m1.right > actual_rect.right then m1.moveRight actual_rect.right else m1
    let m3 := if m2.top < actual_rect.top then m2.moveTop actual_rect.top else m2
    let m4 := if m3.bottom > actual_rect.bottom then m3.moveBottom actual_rect.bottom else m3
    if actual_rect.contains m4.topLeft && actual_rect.contains m4.bottomRight then
      (m4, adjusted_delta, is_min_size)
    else
      (rect, ⟨0, 0⟩, is_min_size)
  else
    (rect, adjusted_delta, is_min_size)

/-- The history-relevant state of `ImageLabel`: the working pixel buffer
(`original_pixmap`, `none` before any load), the bounded-intent history stack
with its index, and the relative selection endpoints.  Pixel buffers are
abstract values of `α`; Python's `.copy()` produces an equal value.  Purely
visual fields (`scale_factor`, cursors, drag flags) are omitted. -/
structure EngineState (α : Type) where
  original_pixmap : Option α
  history : List α
  history_index : ℤ
  rel_start_pos : Option (ℚ × ℚ)
  rel_end_pos : Option (ℚ × ℚ)
  deriving Repr

/-- Dimension and cropping access to the abstract buffer type, standing in
for `QPixmap.width`, `QPixmap.height` and `QImage.copy(rect)`. -/
structure ImgOps (α : Type) where
  width : α → ℤ
  height : α → ℤ
  crop : α → QRectI → α

/-- Embeds `ImageLabel.load_image`: the history is emptied and the loaded
image appended as its single entry, with index 0, and the selection cleared
(via `clear_selection` inside `load_image`/`update`). -/
def load_image {α : Type} (img : α) : EngineState α :=
  { original_pixmap := some img
    history := [img]
    history_index := 0
    rel_start_pos := none
    rel_end_pos := none }

/-- Embeds `ImageLabel.undo_last`: if the history is non-empty, reinstall
`history[history_index]`, pop the *last* entry, recompute the index, clear
the selection and return `True`; otherwise return `False`.  The default of
`getD` is never read when `history_index` is in range. -/
def undo_last {α : Type} (s : EngineState α) : Bool × EngineState α :=
  match s.history with
  | [] => (false, s)
  | b :: _ =>
    (true,
      { original_pixmap := some (s.history.getD s.history_index.toNat b)
        history := s.history.dropLast
        history_index := (s.history.dropLast.length : ℤ) - 1
        rel_start_pos := none
        rel_end_pos := none })

/-- Embeds `ImageLabel.reset_to_original`: if the history is non-empty,
reinstall `history[0]`, collapse the history to that single snapshot with
index 0, clear the selection and return `True`; otherwise return `False`. -/
def reset_to_original {α : Type} (s : EngineState α) : Bool × EngineState α :=
  match s.history with
  | [] => (false, s)
  | first :: _ =>
    (true,
      { original_pixmap := some first
        history := [first]
        history_index := 0
        rel_start_pos := none
        rel_end_pos := none })

/-- Embeds `ImageLabel.rotate_image`.  The geometric content (bounding-box
computation, transparent buffer, painter transform) only determines the new
buffer's pixels, which are abstracted into `rot`; what is embedded is the
history/installation discipline: the source appends `rotated` — the *new*
buffer — to the history, resets the index to the new last position, installs
`rotated` as `original_pixmap`, clears the selection and returns `True`
(`False` when no image is loaded). -/
def rotate_image {α : Type} (rot : α → α) (s : EngineState α) :
    Bool × EngineState α :=
  match s.original_pixmap with
  | Option.none => (false, s)
  | some img =>
    let rotated := rot img
    (true,
      { original_pixmap := some rotated
        history := s.history ++ [rotated]
        history_index := ((s.history ++ [rotated]).length : ℤ) - 1
        rel_start_pos := none
        rel_end_pos := none })

/-- Embeds `ImageLabel.trim_image`: no-op without an image or when
`get_selection_rect` is `None`/falsy (PyQt truthiness of a `QRect` is
modelled as `isValid`; every selection used in the theorems below yields a
plainly valid rectangle, so the choice between `isValid` and `not isNull` is
inert); otherwise the *pre-operation* buffer is appended to the history, the
index reset to the last position, the cropped buffer installed and the
selection cleared. -/
def trim_image {α : Type} (ops : ImgOps α) (s : EngineState α) :
    EngineState α :=
  match s.original_pixmap with
  | Option.none => s
  | some img =>
    match s.rel_start_pos, s.rel_end_pos with
    | some rs, some re =>
      let rect := get_selection_rect rs re (ops.width img) (ops.height img)
      if rect.isValid then
        { original_pixmap := some (ops.crop img rect)
          history := s.history ++ [img]
          history_index := ((s.history ++ [img]).length : ℤ) - 1
          rel_start_pos := none
          rel_end_pos := none }
      else s
    | _, _ => s

/-- Embeds `ImageLabel.add_to_history`: truncate redo states, append the
current buffer, and evict the oldest entry (decrementing the index) when the
capacity `max_history` is exceeded.  No method of the source ever calls it:
`trim_image` and `rotate_image` append to `history` directly. -/
def add_to_history {α : Type} (s : EngineState α) : EngineState α :=
  match s.original_pixmap with
  | Option.none => s
  | some img =>
    let truncated := s.history.take (s.history_index.toNat + 1)
    let appended := truncated ++ [img]
    let idx := s.history_index + 1
    if max_history < appended.length then
      { s with history := appended.drop 1, history_index := idx - 1 }
    else
      { s with history := appended, history_index := idx }

/-- Runs `undo_last` a given number of times, collecting the returned
status flags in order. -/
def undoRun {α : Type} (s : EngineState α) : ℕ → List Bool × EngineState α
  | 0 => ([], s)
  | n + 1 =>
    let r := undo_last s
    let rest := undoRun r.2 n
    (r.1 :: rest.1, rest.2)

/-- Fixed dimension/crop semantics for buffers carried as `(width, height)`
pairs: cropping to a rectangle yields a buffer of that rectangle's size,
as `QImage.copy(rect)` does. -/
def dimOps : ImgOps (ℤ × ℤ) where
  width := Prod.fst
  height := Prod.snd
  crop := fun _ r => (r.width, r.height)

lemma undo_last_nil {α : Type} (s : EngineState α) (h : s.history = []) :
    undo_last s = (false, s) := by
  simp [undo_last, h]

lemma undo_last_history {α : Type} (s : EngineState α) (h : s.history ≠ []) :
    (undo_last s).2.history = s.history.dropLast ∧ (undo_last s).1 = true := by
  obtain ⟨pix, hist, idx, p, q⟩ := s
  cases hist with
  | nil => simp at h
  | cons b t => simp [undo_last]

lemma undoRun_statuses {α : Type} :
    ∀ (n : ℕ) (s : EngineState α), s.history.length = n →
      (undoRun s (n + 1)).1 = List.replicate n true ++ [false] := by
  intro n
  induction n with
  | zero =>
    intro s h
    have hnil : s.history = [] := List.length_eq_zero.mp h
    simp [undoRun, undo_last_nil s hnil]
  | succ n ih =>
    intro s h
    have hne : s.history ≠ [] := by
      intro hh
      rw [hh] at h
      simp at h
    obtain ⟨hdrop, htrue⟩ := undo_last_history s hne
    have hlen : (undo_last s).2.history.length = n := by
      rw [hdrop, List.length_dropLast, h]
      omega
    calc (undoRun s (n + 1 + 1)).1
        = (undo_last s).1 :: (undoRun (undo_last s).2 (n + 1)).1 := rfl
      _ = true :: (List.replicate n true ++ [false]) := by rw [htrue, ih _ hlen]
      _ = List.replicate (n + 1) true ++ [false] := by simp [List.replicate_succ]

/-- Claim C5: `undo_last` restores the buffer at the current top of the
history stack (under the invariant the source maintains, that
`history_index` is the last position) and pops that entry, returning
`True` whenever the history is non-empty; it returns `False` on an empty
history; and from a history of depth `N`, `N` consecutive calls return
`True` and the `(N+1)`-th returns `False`. -/
theorem c5_undo_pop_discipline {α : Type} (s : EngineState α) (N : ℕ)
    (hlen : s.history.length = N) (hidx : s.history_index = (N : ℤ) - 1) :
    (0 < N →
      (undo_last s).1 = true ∧
      (undo_last s).2.original_pixmap = s.history.getLast? ∧
      (undo_last s).2.history = s.history.dropLast) ∧
    (N = 0 → undo_last s = (false, s)) ∧
    (undoRun s (N + 1)).1 = List.replicate N true ++ [false] := by
  refine ⟨?_, ?_, undoRun_statuses N s hlen⟩
  · intro hpos
    obtain ⟨pix, hist, idx, p, q⟩ := s
    cases hist with
    | nil => simp at hlen; omega
    | cons b t =>
      refine ⟨rfl, ?_, rfl⟩
      simp only [undo_last]
      have hN : N = t.length + 1 := by
        simpa using hlen.symm
      have hidx2 : idx.toNat = t.length := by
        simp only [EngineState.history_index] at hidx
        omega
      rw [hidx2, List.getD_eq_getElem?_getD]
      have hlast : (b :: t).getLast? = (b :: t)[t.length]? := by
        rw [List.getLast?_eq_getElem?]
        simp
      rw [← hlast]
      cases hl : (b :: t).getLast? with
      | none => simp at hl
      | some g => simp
  · intro h0
    exact undo_last_nil s (List.length_eq_zero.mp (hlen.trans (by rw [h0])))

/-- Witness for C5 at a concrete state: a freshly loaded image has history
depth 1; one undo succeeds and the second fails. -/
theorem c5_undo_pop_discipline_witness :
    (load_image (0 : ℕ)).history.length = 1 ∧
    (undoRun (load_image (0 : ℕ)) 2).1 = [true, false] :=
  ⟨rfl, (c5_undo_pop_discipline (load_image (0 : ℕ)) 1 rfl rfl).2.2⟩

/-- Claim C7: `reset_to_original` with a non-empty history reinstalls the
index-0 snapshot, collapses the history to that single snapshot, clears the
selection and returns `True`; with an empty history it returns `False` and
leaves the state unchanged. -/
theorem c7_reset_to_original_spec {α : Type} (s : EngineState α) :
    (s.history = [] → reset_to_original s = (false, s)) ∧
    (∀ b t, s.history = b :: t →
      reset_to_original s =
        (true,
          { original_pixmap := some b
            history := [b]
            history_index := 0
            rel_start_pos := none
            rel_end_pos := none })) := by
  obtain ⟨pix, hist, idx, p, q⟩ := s
  constructor
  · intro h
    simp only at h
    subst h
    rfl
  · intro b t h
    simp only at h
    subst h
    rfl

/-- Witness for C7: the empty-history branch and the branch for a freshly
loaded single-snapshot history, at concrete states. -/
theorem c7_reset_to_original_spec_witness :
    reset_to_original (⟨Option.none, [], -1, none, none⟩ : EngineState ℕ) =
      (false, ⟨Option.none, [], -1, none, none⟩) ∧
    reset_to_original (load_image (7 : ℕ)) = (true, load_image (7 : ℕ)) :=
  ⟨(c7_reset_to_original_spec _).1 rfl,
   (c7_reset_to_original_spec (load_image (7 : ℕ))).2 7 [] rfl⟩

/-- Claim C10: immediately after a load (history holds exactly the loaded
snapshot), one `undo_last` returns `True` yet leaves the working buffer
pixel-identical to the displayed image, and empties the history; a
subsequent `reset_to_original` then returns `False` with the state
unchanged, even though an image is still loaded. -/
theorem c10_undo_after_load {α : Type} (img : α) :
    (load_image img).history = [img] ∧
    (undo_last (load_image img)).1 = true ∧
    (undo_last (load_image img)).2.original_pixmap
      = (load_image img).original_pixmap ∧
    (undo_last (load_image img)).2.original_pixmap = some img ∧
    (undo_last (load_image img)).2.history = [] ∧
    (reset_to_original (undo_last (load_image img)).2).1 = false ∧
    (reset_to_original (undo_last (load_image img)).2).2
      = (undo_last (load_image img)).2 :=
  ⟨rfl, rfl, rfl, rfl, rfl, rfl, rfl⟩

/-- Claim C1 (divergence): `rotate_image` appends the *newly rotated*
buffer to the history, not the pre-operation buffer.  Evaluated at the
failing input: load buffer `0`, rotate with a rotation producing `1`
(`Nat.succ`): the snapshot appended by the rotation is `1`, the new buffer,
and differs from the pre-operation buffer `0`. -/
theorem c1_rotate_appends_new_buffer :
    (rotate_image Nat.succ (load_image 0)).1 = true ∧
    (rotate_image Nat.succ (load_image 0)).2.original_pixmap = some 1 ∧
    (rotate_image Nat.succ (load_image 0)).2.history = [0, 1] ∧
    (rotate_image Nat.succ (load_image 0)).2.history.getLast? = some 1 ∧
    (rotate_image Nat.succ (load_image 0)).2.history.getLast? ≠ some 0 := by
  refine ⟨rfl, rfl, rfl, rfl, ?_⟩
  decide

/-- Claim C6 (divergence): the history is not capacity-bounded on the
mutating paths.  `trim_image` and `rotate_image` append to `history`
directly and never call `add_to_history` (the only place eviction exists);
after a load followed by ten rotations the history holds 11 snapshots,
exceeding the capacity `max_history = 10`. -/
theorem c6_history_unbounded :
    ((fun s => (rotate_image id s).2)^[10] (load_image (0 : ℕ))).history.length
      = 11 ∧
    max_history < 11 := by
  constructor
  · decide
  · decide

/-- Claim C3 (divergence): for every edge type other than `move` — in
particular all four single-axis edges and all four corners —
`adjust_rect_size` contains no logic at all: it returns the rectangle
unchanged, the requested delta unchanged, and `is_min_size = False`.  The
candidate-boundary computation, the `MIN_SIZE` clamping and the consumed
delta described by the specification do not exist in the source. -/
theorem c3_non_move_edges_are_noops (origW origH : ℚ) (cur rect : QRectI)
    (e : EdgeType) (delta : QPointI) (h : e ≠ EdgeType.move) :
    adjust_rect_size origW origH cur rect e delta = (rect, delta, false) := by
  simp only [adjust_rect_size]
  rw [if_neg h]

/-- Witness for C3 at the failing input: dragging the Left edge rightwards
by 100 pixels across the whole 20-pixel-wide selection leaves the
rectangle, the delta and the minimum-size flag untouched, where the claim
requires clamping at `right - MIN_SIZE`, `hitMinimum = true` and a reduced
consumed delta. -/
theorem c3_non_move_edges_are_noops_witness :
    adjust_rect_size 100 100 (QRectI.mkXYWH 0 0 200 200)
        (QRectI.mkXYWH 10 10 20 20) EdgeType.left ⟨100, 0⟩ =
      (QRectI.mkXYWH 10 10 20 20, ⟨100, 0⟩, false) :=
  c3_non_move_edges_are_noops 100 100 (QRectI.mkXYWH 0 0 200 200)
    (QRectI.mkXYWH 10 10 20 20) EdgeType.left ⟨100, 0⟩ (by decide)

lemma adjust_rect_size_preserves_size (origW origH : ℚ) (cur rect : QRectI)
    (e : EdgeType) (delta : QPointI) :
    ((adjust_rect_size origW origH cur rect e delta).1).width = rect.width ∧
    ((adjust_rect_size origW origH cur rect e delta).1).height = rect.height := by
  simp only [adjust_rect_size, QRectI.translate, QRectI.moveLeft, QRectI.moveRight,
    QRectI.moveTop, QRectI.moveBottom, QRectI.left, QRectI.right, QRectI.top,
    QRectI.bottom, QRectI.width, QRectI.height]
  split_ifs <;> simp [QRectI.width, QRectI.height]

/-- Claim C4: for every gesture on any edge or corner (including `move`),
starting from a selection of width and height at least `MIN_SIZE`, the
rectangle produced by `adjust_rect_size` — hence the selection installed by
`mouseMoveEvent` — again has width and height at least `MIN_SIZE`.  (In this
source the sizes are in fact preserved exactly on every path.) -/
theorem c4_min_size_invariant (origW origH : ℚ) (cur rect : QRectI)
    (e : EdgeType) (delta : QPointI)
    (hw : MIN_SIZE ≤ rect.width) (hh : MIN_SIZE ≤ rect.height) :
    MIN_SIZE ≤ ((adjust_rect_size origW origH cur rect e delta).1).width ∧
    MIN_SIZE ≤ ((adjust_rect_size origW origH cur rect e delta).1).height := by
  obtain ⟨h1, h2⟩ := adjust_rect_size_preserves_size origW origH cur rect e delta
  rw [h1, h2]
  exact ⟨hw, hh⟩

/-- Witness for C4 at a concrete move gesture whose translation is clamped
at the boundary. -/
theorem c4_min_size_invariant_witness :
    MIN_SIZE ≤ ((adjust_rect_size 100 100 (QRectI.mkXYWH 0 0 100 100)
      (QRectI.mkXYWH 10 10 20 20) EdgeType.move ⟨-20, 0⟩).1).width ∧
    MIN_SIZE ≤ ((adjust_rect_size 100 100 (QRectI.mkXYWH 0 0 100 100)
      (QRectI.mkXYWH 10 10 20 20) EdgeType.move ⟨-20, 0⟩).1).height :=
  c4_min_size_invariant 100 100 (QRectI.mkXYWH 0 0 100 100)
    (QRectI.mkXYWH 10 10 20 20) EdgeType.move ⟨-20, 0⟩ (by decide) (by decide)

lemma actualRect_square_100 :
    actualRect 100 100 (QRectI.mkXYWH 0 0 100 100) = ⟨0, 0, 99, 99⟩ := by
  norm_num [actualRect, intTrunc, QRectI.mkXYWH, QRectI.width, QRectI.height, Int.fdiv]

/-- Claim C2 (counterexample): in Move mode the source does *not* reject a
move whose translation would leave the rendered image area — it slides the
rectangle back to the boundary and reports the full delta as consumed.
Concretely: image area `(0,0)-(99,99)`, selection `(10,10)` of size 20×20,
delta `(-20, 0)`; the translated rectangle would start at `x = -10`, and the
source returns the rectangle slid to `x = 0` with the full delta `(-20, 0)`,
not the unchanged rectangle with a zero delta as the claim states. -/
theorem c2_counterexample :
    ((QRectI.mkXYWH 10 10 20 20).translate ⟨-20, 0⟩).left
        < (actualRect 100 100 (QRectI.mkXYWH 0 0 100 100)).left ∧
    adjust_rect_size 100 100 (QRectI.mkXYWH 0 0 100 100)
        (QRectI.mkXYWH 10 10 20 20) EdgeType.move ⟨-20, 0⟩ =
      (⟨0, 10, 19, 29⟩, ⟨-20, 0⟩, false) ∧
    adjust_rect_size 100 100 (QRectI.mkXYWH 0 0 100 100)
        (QRectI.mkXYWH 10 10 20 20) EdgeType.move ⟨-20, 0⟩ ≠
      (QRectI.mkXYWH 10 10 20 20, ⟨0, 0⟩, false) := by
  simp only [adjust_rect_size, actualRect_square_100]
  refine ⟨by decide, by decide, by decide⟩

set_option maxHeartbeats 2000000 in
/-- Claim C2 (amended): in Move mode, a translation that would leave the
rendered image area is clamped — the rectangle slides to the boundary on
each exceeded side — whenever the selection fits inside the image area at
all; the reported consumed delta is the full requested delta, the size is
preserved, and the result lies inside the image area.  (The all-or-nothing
rejection only occurs when the selection is larger than the image area.) -/
theorem c2_move_clamps_to_bounds (origW origH : ℚ) (cur rect : QRectI)
    (delta : QPointI)
    (hw : 0 < rect.width) (hh : 0 < rect.height)
    (hfw : rect.width ≤ (actualRect origW origH cur).width)
    (hfh : rect.height ≤ (actualRect origW origH cur).height) :
    ∃ r : QRectI,
      adjust_rect_size origW origH cur rect EdgeType.move delta
        = (r, delta, false) ∧
      r.width = rect.width ∧ r.height = rect.height ∧
      (actualRect origW origH cur).x1 ≤ r.x1 ∧
      r.x2 ≤ (actualRect origW origH cur).x2 ∧
      (actualRect origW origH cur).y1 ≤ r.y1 ∧
      r.y2 ≤ (actualRect origW origH cur).y2 := by
  obtain ⟨a, ha⟩ : ∃ a, actualRect origW origH cur = a := ⟨_, rfl⟩
  rw [ha] at hfw hfh ⊢
  simp only [QRectI.width_eq, QRectI.height_eq] at hw hh hfw hfh ⊢
  simp only [adjust_rect_size, ha]
  simp only [reduceIte]
  simp only [QRectI.contains, Bool.and_eq_true, decide_eq_true_eq,
    QRectI.left_eq, QRectI.right_eq, QRectI.top_eq, QRectI.bottom_eq,
    QRectI.translate_x1, QRectI.translate_x2, QRectI.translate_y1,
    QRectI.translate_y2, QRectI.moveLeft_x1, QRectI.moveLeft_x2,
    QRectI.moveLeft_y1, QRectI.moveLeft_y2, QRectI.moveRight_x1,
    QRectI.moveRight_x2, QRectI.moveRight_y1, QRectI.moveRight_y2,
    QRectI.moveTop_x1, QRectI.moveTop_x2, QRectI.moveTop_y1,
    QRectI.moveTop_y2, QRectI.moveBottom_x1, QRectI.moveBottom_x2,
    QRectI.moveBottom_y1, QRectI.moveBottom_y2, QRectI.topLeft_x,
    QRectI.topLeft_y, QRectI.bottomRight_x, QRectI.bottomRight_y]
  split_ifs <;>
    simp_all only [QRectI.translate_x1, QRectI.translate_x2, QRectI.translate_y1,
      QRectI.translate_y2, QRectI.moveLeft_x1, QRectI.moveLeft_x2,
      QRectI.moveLeft_y1, QRectI.moveLeft_y2, QRectI.moveRight_x1,
      QRectI.moveRight_x2, QRectI.moveRight_y1, QRectI.moveRight_y2,
      QRectI.moveTop_x1, QRectI.moveTop_x2, QRectI.moveTop_y1,
      QRectI.moveTop_y2, QRectI.moveBottom_x1, QRectI.moveBottom_x2,
      QRectI.moveBottom_y1, QRectI.moveBottom_y2, not_lt, not_or, and_true,
      true_and] <;>
    first
      | (refine ⟨_, rfl, ?_, ?_, ?_, ?_, ?_, ?_⟩ <;>
          (try simp only [QRectI.translate_x1, QRectI.translate_x2,
            QRectI.translate_y1, QRectI.translate_y2, QRectI.moveLeft_x1,
            QRectI.moveLeft_x2, QRectI.moveLeft_y1, QRectI.moveLeft_y2,
            QRectI.moveRight_x1, QRectI.moveRight_x2, QRectI.moveRight_y1,
            QRectI.moveRight_y2, QRectI.moveTop_x1, QRectI.moveTop_x2,
            QRectI.moveTop_y1, QRectI.moveTop_y2, QRectI.moveBottom_x1,
            QRectI.moveBottom_x2, QRectI.moveBottom_y1, QRectI.moveBottom_y2]) <;>
          omega)
      | (exfalso; omega)

/-- Witness for C2 (amended) at the counterexample input: the 20×20
selection fits in the 100×100 image area, so the move is clamped with full
delta consumed. -/
theorem c2_move_clamps_to_bounds_witness :
    ∃ r : QRectI,
      adjust_rect_size 100 100 (QRectI.mkXYWH 0 0 100 100)
          (QRectI.mkXYWH 10 10 20 20) EdgeType.move ⟨-20, 0⟩
        = (r, ⟨-20, 0⟩, false) ∧
      r.width = (QRectI.mkXYWH 10 10 20 20).width ∧
      r.height = (QRectI.mkXYWH 10 10 20 20).height ∧
      (actualRect 100 100 (QRectI.mkXYWH 0 0 100 100)).x1 ≤ r.x1 ∧
      r.x2 ≤ (actualRect 100 100 (QRectI.mkXYWH 0 0 100 100)).x2 ∧
      (actualRect 100 100 (QRectI.mkXYWH 0 0 100 100)).y1 ≤ r.y1 ∧
      r.y2 ≤ (actualRect 100 100 (QRectI.mkXYWH 0 0 100 100)).y2 :=
  c2_move_clamps_to_bounds 100 100 (QRectI.mkXYWH 0 0 100 100)
    (QRectI.mkXYWH 10 10 20 20) ⟨-20, 0⟩ (by decide) (by decide)
    (by rw [actualRect_square_100]; decide)
    (by rw [actualRect_square_100]; decide)

lemma intTrunc_intCast (n : ℤ) : intTrunc (n : ℚ) = n := by
  unfold intTrunc
  split_ifs
  · exact Int.floor_intCast n
  · exact Int.ceil_intCast n

/-- Claim C8 (counterexample): the source maps relative coordinates with
Python `int()`, which truncates toward zero, not with flooring.  At the
relative selection from `(-1/8, 1/5)` to `(3/5, 3/5)` on a 100×50 image the
x-products are `-12.5` and `72.5`: the source truncates to `-12`/`72` and,
after normalization and intersection with the image bounds, yields the pixel
rectangle `(0,10)-(59,29)`, while the floor-based mapping of the claim
yields `(0,10)-(58,29)`. -/
theorem c8_counterexample :
    get_selection_rect (-1/8, 1/5) (3/5, 3/5) 100 50 = ⟨0, 10, 59, 29⟩ ∧
    selection_rect_floor (-1/8, 1/5) (3/5, 3/5) 100 50 = ⟨0, 10, 58, 29⟩ ∧
    get_selection_rect (-1/8, 1/5) (3/5, 3/5) 100 50 ≠
      selection_rect_floor (-1/8, 1/5) (3/5, 3/5) 100 50 := by
  have h1 : get_selection_rect (-1/8, 1/5) (3/5, 3/5) 100 50 = ⟨0, 10, 59, 29⟩ := by
    norm_num [get_selection_rect, intTrunc, QRectI.mkXYWH, QRectI.normalized,
      QRectI.intersected, QRectI.isNull, Int.ceil_neg]
  have h2 : selection_rect_floor (-1/8, 1/5) (3/5, 3/5) 100 50 = ⟨0, 10, 58, 29⟩ := by
    norm_num [selection_rect_floor, QRectI.mkXYWH, QRectI.normalized,
      QRectI.intersected, QRectI.isNull]
  refine ⟨h1, h2, ?_⟩
  rw [h1, h2]
  decide

/-- Claim C8 (amended): the source's mapping agrees with the floor-based
description whenever all products are non-negative — in particular for any
selection with `0 ≤ start ≤ end` —, and the concrete scenario holds: on a
100×50 image the relative selection `(0.2, 0.2)`–`(0.6, 0.6)` resolves to
the pixel rectangle with top-left `(20, 10)` and size 40×20, and cropping
installs a 40×20 buffer. -/
theorem c8_selection_mapping_amended :
    (∀ (rs re : ℚ × ℚ) (W H : ℤ), 0 ≤ rs.1 → 0 ≤ rs.2 → rs.1 ≤ re.1 →
      rs.2 ≤ re.2 → 0 ≤ W → 0 ≤ H →
      get_selection_rect rs re W H = selection_rect_floor rs re W H) ∧
    get_selection_rect (1/5, 1/5) (3/5, 3/5) 100 50 = ⟨20, 10, 59, 29⟩ ∧
    (⟨20, 10, 59, 29⟩ : QRectI).width = 40 ∧
    (⟨20, 10, 59, 29⟩ : QRectI).height = 20 ∧
    (trim_image dimOps
        { original_pixmap := some ((100 : ℤ), (50 : ℤ))
          history := [((100 : ℤ), (50 : ℤ))]
          history_index := 0
          rel_start_pos := some (1/5, 1/5)
          rel_end_pos := some (3/5, 3/5) }).original_pixmap
      = some ((40 : ℤ), (20 : ℤ)) := by
  have hsel : get_selection_rect (1/5, 1/5) (3/5, 3/5) 100 50 = ⟨20, 10, 59, 29⟩ := by
    norm_num [get_selection_rect, intTrunc, QRectI.mkXYWH, QRectI.normalized,
      QRectI.intersected, QRectI.isNull]
  refine ⟨?_, hsel, by decide, by decide, ?_⟩
  · intro rs re W H h1 h2 h3 h4 hW hH
    have hWQ : (0 : ℚ) ≤ (W : ℚ) := by exact_mod_cast hW
    have hHQ : (0 : ℚ) ≤ (H : ℚ) := by exact_mod_cast hH
    have e1 : intTrunc (rs.1 * (W : ℚ)) = ⌊rs.1 * (W : ℚ)⌋ :=
      if_pos (mul_nonneg h1 hWQ)
    have e2 : intTrunc (rs.2 * (H : ℚ)) = ⌊rs.2 * (H : ℚ)⌋ :=
      if_pos (mul_nonneg h2 hHQ)
    have e3 : intTrunc ((re.1 - rs.1) * (W : ℚ)) = ⌊(re.1 - rs.1) * (W : ℚ)⌋ :=
      if_pos (mul_nonneg (sub_nonneg.mpr h3) hWQ)
    have e4 : intTrunc ((re.2 - rs.2) * (H : ℚ)) = ⌊(re.2 - rs.2) * (H : ℚ)⌋ :=
      if_pos (mul_nonneg (sub_nonneg.mpr h4) hHQ)
    rw [get_selection_rect, selection_rect_floor, e1, e2, e3, e4]
  · simp only [trim_image, dimOps]
    rw [hsel]
    norm_num [QRectI.isValid]

/-- Witness for C8 (amended) at the scenario input. -/
theorem c8_selection_mapping_amended_witness :
    get_selection_rect (1/5, 1/5) (3/5, 3/5) 100 50
      = selection_rect_floor (1/5, 1/5) (3/5, 3/5) 100 50 :=
  c8_selection_mapping_amended.1 (1/5, 1/5) (3/5, 3/5) 100 50 (by norm_num)
    (by norm_num) (by norm_num) (by norm_num) (by norm_num) (by norm_num)

lemma actualRect_letterboxed :
    actualRect 100 100 (QRectI.mkXYWH 0 0 200 100) = ⟨50, 0, 149, 99⟩ := by
  norm_num [actualRect, intTrunc, QRectI.mkXYWH, Int.fdiv_eq_ediv]

/-- Claim C9 (counterexample): the round trip fails on a letterboxed
display.  For a square 100×100 image shown in a 200×100 display rectangle
the actually painted area is `(50,0)-(149,99)`; the point `(50, 0)` inside
it maps to relative `(0, 0)`, but `to_local_pos` maps relative coordinates
over the *full* display rectangle, returning `(0, 0)` — 50 pixels away,
far beyond integer-rounding tolerance. -/
theorem c9_counterexample :
    (actualRect 100 100 (QRectI.mkXYWH 0 0 200 100)).contains ⟨50, 0⟩ = true ∧
    to_local_pos (QRectI.mkXYWH 0 0 200 100)
        (to_relative_pos 100 100 (QRectI.mkXYWH 0 0 200 100) ⟨50, 0⟩)
      = ⟨0, 0⟩ ∧
    1 < |(to_local_pos (QRectI.mkXYWH 0 0 200 100)
        (to_relative_pos 100 100 (QRectI.mkXYWH 0 0 200 100) ⟨50, 0⟩)).x - 50| := by
  have h2 : to_local_pos (QRectI.mkXYWH 0 0 200 100)
      (to_relative_pos 100 100 (QRectI.mkXYWH 0 0 200 100) ⟨50, 0⟩) = ⟨0, 0⟩ := by
    rw [to_relative_pos, actualRect_letterboxed]
    norm_num [to_local_pos, intTrunc, QRectI.mkXYWH]
  refine ⟨?_, h2, ?_⟩
  · rw [actualRect_letterboxed]
    decide
  · rw [h2]
    decide

/-- Claim C9 (amended): the relative/local round trip is the identity
whenever the display rectangle has the image's aspect ratio (no
letterboxing), i.e. when the actually painted area is the whole display
rectangle; with exact rational arithmetic the round trip is then exact, not
merely within rounding tolerance. -/
theorem c9_roundtrip_no_letterbox (origW origH : ℚ) (cur : QRectI) (p : QPointI)
    (hW : 0 < origW) (hH : 0 < origH)
    (hcw : 0 < cur.width) (hch : 0 < cur.height)
    (hasp : origW * ((cur.height : ℤ) : ℚ) = origH * ((cur.width : ℤ) : ℚ)) :
    to_local_pos cur (to_relative_pos origW origH cur p) = p := by
  have hcwQ : (0 : ℚ) < ((cur.width : ℤ) : ℚ) := by exact_mod_cast hcw
  have hchQ : (0 : ℚ) < ((cur.height : ℤ) : ℚ) := by exact_mod_cast hch
  have haspect : origW / origH = ((cur.width : ℤ) : ℚ) / ((cur.height : ℤ) : ℚ) := by
    rw [div_eq_div_iff hH.ne' hchQ.ne']
    linarith [hasp]
  have hval : ((cur.height : ℤ) : ℚ) * (origW / origH) = ((cur.width : ℤ) : ℚ) := by
    rw [haspect, mul_comm, div_mul_cancel₀ _ hchQ.ne']
  have hact : actualRect origW origH cur = cur := by
    simp only [actualRect]
    rw [if_neg (by rw [haspect]; exact lt_irrefl _), hval, intTrunc_intCast]
    simp only [QRectI.width_eq, sub_self, Int.zero_fdiv]
    conv_rhs => rw [← QRectI.mk_eta cur]
    simp only [QRectI.mk.injEq]
    refine ⟨by omega, trivial, by omega, trivial⟩
  rw [to_relative_pos, hact, to_local_pos]
  have hx : ((cur.left : ℤ) : ℚ)
      + ((p.x : ℚ) - ((cur.left : ℤ) : ℚ)) / ((cur.width : ℤ) : ℚ) * ((cur.width : ℤ) : ℚ)
      = ((p.x : ℤ) : ℚ) := by
    rw [div_mul_cancel₀ _ hcwQ.ne']
    ring
  have hy : ((cur.top : ℤ) : ℚ)
      + ((p.y : ℚ) - ((cur.top : ℤ) : ℚ)) / ((cur.height : ℤ) : ℚ) * ((cur.height : ℤ) : ℚ)
      = ((p.y : ℤ) : ℚ) := by
    rw [div_mul_cancel₀ _ hchQ.ne']
    ring
  rw [hx, hy, intTrunc_intCast, intTrunc_intCast]

/-- Witness for C9 (amended): a 2:1 image in a 2:1 display rectangle
placed at `(5, 7)`; the round trip returns the input point exactly. -/
theorem c9_roundtrip_no_letterbox_witness :
    to_local_pos (QRectI.mkXYWH 5 7 100 50)
        (to_relative_pos 2 1 (QRectI.mkXYWH 5 7 100 50) ⟨30, 20⟩)
      = ⟨30, 20⟩ :=
  c9_roundtrip_no_letterbox 2 1 (QRectI.mkXYWH 5 7 100 50) ⟨30, 20⟩
    (by norm_num) (by norm_num) (by decide) (by decide)
    (by norm_num [QRectI.mkXYWH])

end ImgEZ
